import Mathlib

/-!
Verification of the Shopify Store Insights Fetcher application.

This file gives a shallow embedding, in Lean 4, of the pure computational
core of the application's Python modules, and proves (or refutes) the
frozen behavioural claims about them:

* `modules/hero_product_extractor.py` — hero-product selection by tags
  (`extract_async`, `_filter_hero_products_by_tags`,
  `_sort_hero_products_by_relevance`, `_load_all_products_from_json`);
* `core/utils.py` — `WebScraper.fetch_page` retry/backoff logic and
  `ShopifyDetector.is_shopify_store`;
* `modules/shopify_service.py` — catalog-discovery fallback caps and
  product deduplication;
* `modules/product_extractor.py` — product deduplication;
* `modules/extractors.py` — social-handle extraction;
* `modules/competitor_analyzer.py` — competitor deduplication/validation.

Side effects (network, logging, parsing of real HTML) are abstracted by
passing the data the code would have received (lists of products, anchor
hrefs, response traces) as explicit arguments; the control flow and data
transformations of the Python source are translated statement by
statement.
-/

/-! ## String helpers

`strContains s pat` models the Python substring test `pat in s`.
`strLower` models `str.lower()` (ASCII case folding, which is what
every string compared in this code base uses), and `strStrip` models
`str.strip()`.
-/

/-- Is `pat` a (character-wise) leading segment of `l`?  Helper for
`strContains`. -/
def charsLeadWith : List Char → List Char → Bool
  | _, [] => true
  | [], _ :: _ => false
  | c :: cs, d :: ds => c == d && charsLeadWith cs ds

/-- Does `pat` occur as a contiguous run inside `l`?  Helper for
`strContains`. -/
def charsContain (pat : List Char) : List Char → Bool
  | [] => pat.isEmpty
  | c :: cs => charsLeadWith (c :: cs) pat || charsContain pat cs

/-- Models the Python substring test `pat in s`. -/
def strContains (s pat : String) : Bool :=
  charsContain pat.data s.data

/-- ASCII lower-casing of one character, as `str.lower()` does on the
ASCII strings this code base compares. -/
def lowerChar (c : Char) : Char :=
  if 'A' ≤ c && c ≤ 'Z' then Char.ofNat (c.toNat + 32) else c

/-- Models Python's `str.lower()` on ASCII strings. -/
def strLower (s : String) : String :=
  String.mk (s.data.map lowerChar)

/-- Models Python's `str.startswith(pat)`. -/
def strStartsWith (s pat : String) : Bool :=
  charsLeadWith s.data pat.data

/-- Models Python's `str.strip()`: drop whitespace from both ends. -/
def strStrip (s : String) : String :=
  String.mk
    (((s.data.dropWhile Char.isWhitespace).reverse.dropWhile
        Char.isWhitespace).reverse)

/-! ## Data model

`Product` embeds `core/models.py`'s `ProductModel` (pydantic).  Field
names follow the source; `Optional[str]` becomes `Option String` and the
pydantic defaults are kept. -/

/-- Embeds `ProductModel` from `core/models.py`. -/
structure Product where
  name : String
  price : Option String := none
  original_price : Option String := none
  currency : Option String := none
  availability : Option String := none
  image_url : Option String := none
  product_url : Option String := none
  description : Option String := none
  variants : Option (List String) := some []
  tags : Option (List String) := some []
deriving DecidableEq

/-- The tag list of a product as Python sees it in
`'homepage' in (product.tags or [])`: `None` behaves as the empty
list. -/
def tagsOf (p : Product) : List String :=
  p.tags.getD []

/-- Python truthiness of an optional string field (`None` and `''` are
falsy). -/
def truthyStr : Option String → Bool
  | none => false
  | some s => !s.isEmpty

/-! ## Hero-product extraction (`modules/hero_product_extractor.py`) -/

/-- The `hero_tags` set defined inside
`HeroProductExtractor._filter_hero_products_by_tags` (lines 190–197).
Listed exactly as in the source; all entries are distinct, so a list
models the Python set faithfully. -/
def heroTags : List String :=
  ["homepage", "hero", "featured", "main", "highlight", "spotlight",
   "bestseller", "best seller", "best-seller", "top seller", "top-seller",
   "trending", "popular", "most popular", "staff pick", "staff-pick",
   "editor choice", "editor-choice", "recommended", "must have", "must-have",
   "signature", "flagship", "star product", "star-product",
   "front page", "front-page", "home", "banner", "promo", "promotional"]

/-- Does the product carry the tag `homepage`
(`'homepage' in (product.tags or [])`)? -/
def isHomepageTagged (p : Product) : Bool :=
  (tagsOf p).contains "homepage"

/-- The classification a product receives in the loop body of
`_filter_hero_products_by_tags` when it lands in `hero_products`:
truthy tags, no `homepage` tag, but a nonempty intersection with
`hero_tags`. -/
def isOtherHeroTagged (p : Product) : Bool :=
  !(tagsOf p).isEmpty && !isHomepageTagged p
    && heroTags.any (fun t => (tagsOf p).contains t)

/-- The single pass of `_filter_hero_products_by_tags` (lines 199–210)
that splits the input into `homepage_products` and `hero_products`,
preserving input order inside each list. -/
def filterHeroAux : List Product → List Product × List Product
  | [] => ([], [])
  | p :: ps =>
    let r := filterHeroAux ps
    if (tagsOf p).isEmpty then r
    else if isHomepageTagged p then (p :: r.1, r.2)
    else if heroTags.any (fun t => (tagsOf p).contains t) then (r.1, p :: r.2)
    else r

/-- Embeds `HeroProductExtractor._filter_hero_products_by_tags`
(lines 184–225).  Every branch of the trailing `if`/`elif`/`else`
returns, so the function never reaches the sort call on line 229: the
returned order is `homepage_products` followed by `hero_products`, each
in input order. -/
def filter_hero_products_by_tags (products : List Product) : List Product :=
  let r := filterHeroAux products
  if !r.1.isEmpty then r.1 ++ r.2
  else if !r.2.isEmpty then r.2
  else []

/-- Embeds `HeroProductExtractor.extract_async` (lines 25–50).  The
catalog the code loaded (from `/products.json`, or the HTML fallback)
arrives as `products`; `positionFallback` stands for the result of
`_extract_hero_products_by_position`, used only when no product passes
the tag filter. -/
def extract_async (products positionFallback : List Product) : List Product :=
  let heroProducts := filter_hero_products_by_tags products
  let selected := if heroProducts.isEmpty then positionFallback else heroProducts
  if selected.any isHomepageTagged then selected.take 10
  else selected.take 6

/-- Embeds the score computed in
`HeroProductExtractor._sort_hero_products_by_relevance` (lines 237–262)
for one product, given the `hero_tags` argument the caller passes. -/
def productScore (hero_tags : List String) (p : Product) : Nat :=
  let tagScore :=
    if (tagsOf p).isEmpty then 0
    else
      (hero_tags.filter (fun t => (tagsOf p).contains t)).length * 10 +
      (if (tagsOf p).contains "homepage" then 50
       else if (tagsOf p).contains "hero" then 30
       else if (tagsOf p).contains "featured" then 20
       else if ["bestseller", "best seller", "best-seller"].any
                 (fun t => (tagsOf p).contains t) then 15
       else 0)
  tagScore
    + (if truthyStr p.image_url then 10 else 0)
    + (if truthyStr p.price then 5 else 0)
    + (if truthyStr p.description then 5 else 0)

/-- Stable insertion of `p` into a list already sorted by descending
score: `p` (which comes earlier in the original input) goes before every
element of equal score.  Together with `sort_hero_products_by_relevance`
this models Python's stable `list.sort(key=lambda x: x[0],
reverse=True)`. -/
def insertByScoreDesc (hero_tags : List String) (p : Product) :
    List Product → List Product
  | [] => [p]
  | q :: qs =>
    if productScore hero_tags q ≤ productScore hero_tags p then p :: q :: qs
    else q :: insertByScoreDesc hero_tags p qs

/-- Embeds `HeroProductExtractor._sort_hero_products_by_relevance`
(lines 233–268): sort by score, descending, stable. -/
def sort_hero_products_by_relevance (hero_tags : List String)
    (products : List Product) : List Product :=
  products.foldr (insertByScoreDesc hero_tags) []

/-! ## Vendor-JSON catalog pagination
(`HeroProductExtractor._load_all_products_from_json`, lines 72–113)

The endpoint is modelled as `responses : Nat → Option (List (Option
Product))`: `responses page = none` when the fetch fails, the body does
not parse, or the parsed object has no `products` key; `some items`
gives the page's product entries, each already run through
`_convert_json_to_product_model` (which returns `Optional`, hence
`Option Product`).  The pair returned is (accumulated products, number
of page fetches performed). -/

/-- One run of the `while page <= max_pages` loop from `page`, with
`fuel = max_pages - page + 1` remaining iterations. -/
def loadPagesGo (responses : Nat → Option (List (Option Product))) :
    Nat → Nat → List Product × Nat
  | 0, _ => ([], 0)
  | fuel + 1, page =>
    match responses page with
    | none => ([], 1)
    | some items =>
      if items.isEmpty then ([], 1)
      else
        let converted := items.filterMap id
        if items.length < 50 then (converted, 1)
        else
          let r := loadPagesGo responses fuel (page + 1)
          (converted ++ r.1, r.2 + 1)

/-- Embeds `_load_all_products_from_json`: pages start at 1 and
`max_pages = 10`. -/
def load_all_products_from_json
    (responses : Nat → Option (List (Option Product))) :
    List Product × Nat :=
  loadPagesGo responses 10 1

/-- A page response on which the pagination loop continues: it parsed,
is nonempty, and holds at least the Shopify default page size of 50
entries. -/
def isFullPage : Option (List (Option Product)) → Bool
  | none => false
  | some items => !items.isEmpty && decide (50 ≤ items.length)

/-- A page response on which the pagination loop stops: fetch/parse
failure, an empty page, or fewer than 50 entries. -/
def isStopPage : Option (List (Option Product)) → Bool
  | none => true
  | some items => items.isEmpty || decide (items.length < 50)

/-! ## Page fetching (`core/utils.py`, `WebScraper.fetch_page`,
lines 64–103)

An attempt's outcome is what `self.session.get(url)` produced:
an HTTP response (status code plus body) or one of the exception
classes the code catches.  `fetch_page` is deterministic given the
sequence of outcomes, the retry budget and the result the synchronous
fallback `fetch_page_sync` would return, so it is embedded as a
function of those. -/

/-- What one `session.get` attempt yields inside `fetch_page`. -/
inductive FetchOutcome where
  | response (code : Nat) (body : String)
  | timeout
  | clientError
  | otherError
deriving DecidableEq

/-- Observable trace of one `fetch_page` call: the value returned, the
number of asynchronous attempts made, the backoff sleeps (in seconds)
performed between consecutive attempts, and whether control reached the
synchronous fallback `fetch_page_sync`. -/
structure FetchTrace where
  result : Option String
  attemptsMade : Nat
  backoffs : List Nat
  syncInvoked : Bool
deriving DecidableEq

/-- The `for attempt in range(retries + 1)` loop of `fetch_page`, run
over the list of remaining attempt indices.  Status 200 returns the
body (after the fixed rate-limit sleep, which is not a retry backoff
and is not recorded here); status 404 breaks out of the loop; every
other status and every caught exception falls through to the backoff
sleep `min(2 ** attempt, 10)` — taken only when attempts remain — and
retries.  After the loop, control reaches `fetch_page_sync`, whose
return value is `syncResult`. -/
def fetchAttempts (outcomes : Nat → FetchOutcome) (syncResult : Option String) :
    List Nat → FetchTrace
  | [] => ⟨syncResult, 0, [], true⟩
  | a :: rest =>
    let soft : FetchTrace :=
      if rest.isEmpty then ⟨syncResult, 1, [], true⟩
      else
        let t := fetchAttempts outcomes syncResult rest
        ⟨t.result, t.attemptsMade + 1, min (2 ^ a) 10 :: t.backoffs, t.syncInvoked⟩
    match outcomes a with
    | .response code body =>
      if code = 200 then ⟨some body, 1, [], false⟩
      else if code = 404 then ⟨syncResult, 1, [], true⟩
      else soft
    | .timeout => soft
    | .clientError => soft
    | .otherError => soft

/-- Embeds `WebScraper.fetch_page` with an explicit retry budget
(`retries = settings.max_retries` when the caller passes `None`). -/
def fetch_page (outcomes : Nat → FetchOutcome) (retries : Nat)
    (syncResult : Option String) : FetchTrace :=
  fetchAttempts outcomes syncResult (List.range (retries + 1))

/-- The soft-failure outcomes named by the specification: HTTP
403/429/5xx, a timeout, or a transport (client) error. -/
def isSoftOutcome : FetchOutcome → Bool
  | .response code _ =>
    code == 403 || code == 429 || (decide (500 ≤ code) && decide (code < 600))
  | .timeout => true
  | .clientError => true
  | .otherError => false

/-! ## Shopify detection (`core/utils.py`, `ShopifyDetector.is_shopify_store`,
lines 151–173) -/

/-- The `shopify_indicators` list from `is_shopify_store`. -/
def shopifyIndicators : List String :=
  ["Shopify.theme", "shopify.com", "cdn.shopify.com", "Shopify.shop",
   "shopify-features", "shopify-section", "myshopify.com"]

/-- Embeds `ShopifyDetector.is_shopify_store`: falsy (empty) content is
rejected first, then the URL is tested for `myshopify.com`, then the
lower-cased body is tested for each indicator (also lower-cased). -/
def is_shopify_store (html_content url : String) : Bool :=
  if html_content.isEmpty then false
  else if strContains url "myshopify.com" then true
  else shopifyIndicators.any
    (fun indicator => strContains (strLower html_content) (strLower indicator))

/-! ## Catalog-discovery fallback (`modules/shopify_service.py`,
`_discover_product_urls` lines 306–366 and
`_fetch_product_catalog_fallback` lines 261–304)

`_discover_product_urls` accumulates candidate URLs from collection
pages, the main page's anchors and the sitemap into a Python `set`,
then returns `list(product_urls)[:100]`.  The set is modelled as
first-occurrence deduplication of the harvested sequence; the claims
proved below depend only on the resulting membership and cardinality,
not on Python's set iteration order. -/

/-- First-occurrence deduplication (insertion into a Python set). -/
def dedupFirstGo : List String → List String → List String
  | [], _ => []
  | u :: us, seen =>
    if seen.contains u then dedupFirstGo us seen
    else u :: dedupFirstGo us (u :: seen)

/-- Embeds the return value of `_discover_product_urls`:
`list(product_urls)[:100]` for the harvested URL set. -/
def discover_product_urls (harvested : List String) : List String :=
  (dedupFirstGo harvested []).take 100

/-- Embeds the set of URLs `_fetch_product_catalog_fallback` actually
fetches concurrently: `tasks = [... for url in product_urls[:20]]`
(line 293). -/
def fallback_fetched_urls (harvested : List String) : List String :=
  (discover_product_urls harvested).take 20

/-! ## Product deduplication (`modules/shopify_service.py` lines 383–395
and `modules/product_extractor.py` lines 406–420)

Both functions scan the list once, keeping the first record whose key
has not been seen; `dedupByGo` abstracts the shared loop, with the key
function and the extra `and product.name` guard of the extractor
version as parameters. -/

/-- Shared single pass of both `_deduplicate_products` loops: keep `p`
when its key is unseen and `keep p` holds, recording the key. -/
def dedupByGo {κ : Type} [DecidableEq κ] (key : Product → κ)
    (keep : Product → Bool) : List Product → List κ → List Product
  | [], _ => []
  | p :: ps, seen =>
    if key p ∉ seen ∧ keep p then p :: dedupByGo key keep ps (key p :: seen)
    else dedupByGo key keep ps seen

/-- Embeds `ShopifyInsightsService._deduplicate_products`: key is the
pair `(product.name, product.product_url)`, no extra guard. -/
def deduplicate_products_service (products : List Product) : List Product :=
  dedupByGo (fun p => (p.name, p.product_url)) (fun _ => true) products []

/-- Embeds `ProductExtractor._deduplicate_products`: key is
`(product.name.lower() if product.name else '', product.product_url or
'')` and only products with truthy `name` are kept. -/
def deduplicate_products_extractor (products : List Product) : List Product :=
  dedupByGo
    (fun p => ((if p.name.isEmpty then "" else strLower p.name),
               p.product_url.getD ""))
    (fun p => !p.name.isEmpty) products []

/-! ## Social-handle extraction (`modules/extractors.py`,
`SocialMediaExtractor.extract`, lines 262–291)

The parsed page is modelled by the sequence of `href` attribute values
of its anchors, in document order (`safe_get_attr` yields `''` for a
missing attribute, and falsy hrefs are skipped by the `continue`). -/

/-- The fixed platform enumeration of `SocialHandles`. -/
inductive SocialPlatform where
  | instagram
  | facebook
  | twitter
  | tiktok
  | youtube
  | linkedin
  | pinterest
deriving DecidableEq

/-- Embeds the `SocialHandles` model from `core/models.py`. -/
structure SocialHandles where
  instagram : Option String := none
  facebook : Option String := none
  twitter : Option String := none
  tiktok : Option String := none
  youtube : Option String := none
  linkedin : Option String := none
  pinterest : Option String := none
deriving DecidableEq

/-- Field access on `SocialHandles`, indexed by platform. -/
def getHandle (s : SocialHandles) : SocialPlatform → Option String
  | .instagram => s.instagram
  | .facebook => s.facebook
  | .twitter => s.twitter
  | .tiktok => s.tiktok
  | .youtube => s.youtube
  | .linkedin => s.linkedin
  | .pinterest => s.pinterest

/-- Field update on `SocialHandles`, indexed by platform. -/
def setHandle (s : SocialHandles) (p : SocialPlatform) (v : String) :
    SocialHandles :=
  match p with
  | .instagram => { s with instagram := some v }
  | .facebook => { s with facebook := some v }
  | .twitter => { s with twitter := some v }
  | .tiktok => { s with tiktok := some v }
  | .youtube => { s with youtube := some v }
  | .linkedin => { s with linkedin := some v }
  | .pinterest => { s with pinterest := some v }

/-- Embeds `SocialMediaExtractor._clean_social_url`: strip everything
from the first `?` (the regex `re.sub(r'\x3f.*$', '', url)` on a
single-line URL), then `strip()`. -/
def clean_social_url (url : String) : String :=
  strStrip (String.mk (url.data.takeWhile (fun c => !(c == '?'))))

/-- Which slot, if any, the `if`/`elif` chain of
`SocialMediaExtractor.extract` assigns for a given href: the chain
tests the lower-cased href, in the source's order, and falsy hrefs are
skipped. -/
def platformOfHref (href : String) : Option SocialPlatform :=
  if href.isEmpty then none
  else
    let h := strLower href
    if strContains h "instagram.com" then some .instagram
    else if strContains h "facebook.com" then some .facebook
    else if strContains h "twitter.com" || strContains h "x.com" then
      some .twitter
    else if strContains h "tiktok.com" then some .tiktok
    else if strContains h "youtube.com" then some .youtube
    else if strContains h "linkedin.com" then some .linkedin
    else if strContains h "pinterest.com" then some .pinterest
    else none

/-- One iteration of the anchor loop in `SocialMediaExtractor.extract`:
the matched slot is assigned (overwritten) with the cleaned original
href. -/
def updateSocialHandles (s : SocialHandles) (href : String) : SocialHandles :=
  match platformOfHref href with
  | none => s
  | some p => setHandle s p (clean_social_url href)

/-- Embeds `SocialMediaExtractor.extract` over the page's anchor hrefs
in document order. -/
def extractSocialHandles (hrefs : List String) : SocialHandles :=
  hrefs.foldl updateSocialHandles {}

/-! ## Competitor deduplication (`modules/competitor_analyzer.py`,
`_deduplicate_and_validate_competitors` lines 384–406,
`_is_valid_competitor_url` lines 408–435) -/

/-- Embeds a competitor candidate dict `{'name': ..., 'url': ...,
'source': ...}`. -/
structure Candidate where
  name : String
  url : String
  source : String
deriving DecidableEq

/-- Models `urlparse(url).netloc` for absolute URLs: the run of
characters after the first `://` up to the next `/`, `?` or `#` (empty
when the URL has no `://`). -/
def netlocAfterScheme : List Char → Option (List Char)
  | [] => none
  | ':' :: '/' :: '/' :: rest => some rest
  | _ :: cs => netlocAfterScheme cs

/-- The network location (domain) component of a URL. -/
def netloc (url : String) : String :=
  match netlocAfterScheme url.data with
  | some rest =>
    String.mk (rest.takeWhile (fun c => !(c == '/' || c == '?' || c == '#')))
  | none => ""

/-- The `excluded_domains` list of `_is_valid_competitor_url`. -/
def excludedDomains : List String :=
  ["google.com", "facebook.com", "instagram.com", "twitter.com",
   "youtube.com", "wikipedia.org", "amazon.com", "ebay.com",
   "linkedin.com", "reddit.com", "pinterest.com"]

/-- Embeds `CompetitorAnalyzer._is_valid_competitor_url`: reject the
original site's own domain, excluded domains (substring test on the
netloc) and URLs not starting with `http`. -/
def is_valid_competitor_url (url original_url : String) : Bool :=
  if netloc original_url == netloc url then false
  else if excludedDomains.any (fun d => strContains (netloc url) d) then false
  else if !strStartsWith url "http" then false
  else true

/-- The loop of `_deduplicate_and_validate_competitors`, carrying the
`seen_urls` and `seen_names` sets: a candidate is skipped when its
lower-cased URL or lower-cased name was seen, or when it fails
validation (in which case nothing is recorded as seen). -/
def dedupValGo (original_url : String) :
    List Candidate → List String → List String → List Candidate
  | [], _, _ => []
  | c :: cs, seenUrls, seenNames =>
    let u := strLower c.url
    let n := strLower c.name
    if u ∈ seenUrls ∨ n ∈ seenNames then
      dedupValGo original_url cs seenUrls seenNames
    else if !is_valid_competitor_url c.url original_url then
      dedupValGo original_url cs seenUrls seenNames
    else c :: dedupValGo original_url cs (u :: seenUrls) (n :: seenNames)

/-- Embeds `CompetitorAnalyzer._deduplicate_and_validate_competitors`. -/
def deduplicate_and_validate_competitors (competitors : List Candidate)
    (original_url : String) : List Candidate :=
  dedupValGo original_url competitors [] []

/-! ## Concrete inputs used by witnesses and counterexamples -/

/-- A product tagged `homepage`. -/
def hpProduct : Product :=
  { name := "Homepage Hero", tags := some ["homepage", "new"] }

/-- A product with no hero-related tag. -/
def plainProduct : Product :=
  { name := "Plain", tags := some ["clothing"] }

/-- A `hero`-tagged product with no image, price or description. -/
def heroPlain : Product :=
  { name := "Hero Plain", tags := some ["hero"] }

/-- A `hero`-tagged product that also has an image. -/
def heroWithImage : Product :=
  { name := "Hero Imaged", tags := some ["hero"],
    image_url := some "https://cdn.example.com/b.jpg" }

/-- Twenty-one distinct harvested product URLs. -/
def urls21 : List String :=
  ["u01", "u02", "u03", "u04", "u05", "u06", "u07", "u08", "u09", "u10",
   "u11", "u12", "u13", "u14", "u15", "u16", "u17", "u18", "u19", "u20",
   "u21"]

/-- A competitor candidate on the domain `shop.com`. -/
def candA : Candidate :=
  { name := "Brand A", url := "https://shop.com/a", source := "search" }

/-- A second, different candidate on the same domain `shop.com`. -/
def candB : Candidate :=
  { name := "Brand B", url := "https://shop.com/b", source := "search" }

/-- A response trace for the vendor-JSON endpoint: page 1 is full
(50 entries), page 2 is short (1 entry), everything after fails. -/
def pagedResponses : Nat → Option (List (Option Product)) :=
  fun j =>
    if j = 1 then some (List.replicate 50 (some plainProduct))
    else if j = 2 then some [some plainProduct]
    else none

/-- An attempt-outcome trace whose first attempt times out and whose
second attempt answers 404. -/
def outcomesTimeoutThen404 : Nat → FetchOutcome :=
  fun i => if i = 0 then FetchOutcome.timeout else FetchOutcome.response 404 "gone"

/-! ## Theorems -/

/-- Helper for C6: the shared deduplication loop is idempotent for any
key and guard, and any starting `seen` set. -/
theorem dedupByGo_idem {κ : Type} [DecidableEq κ] (key : Product → κ)
    (keep : Product → Bool) :
    ∀ (l : List Product) (seen : List κ),
      dedupByGo key keep (dedupByGo key keep l seen) seen
        = dedupByGo key keep l seen := by
  intro l
  induction l with
  | nil => intro seen; rfl
  | cons p ps ih =>
    intro seen
    by_cases h : key p ∉ seen ∧ keep p = true
    · simp only [dedupByGo, if_pos h]
      rw [ih (key p :: seen)]
    · simp only [dedupByGo, if_neg h]
      exact ih seen

/-- C6: deduplication of `ProductRecord` lists by identity key keeping
the first-seen record is idempotent, for both implementations
(`ShopifyInsightsService._deduplicate_products`, keyed on
`(name, product_url)`, and `ProductExtractor._deduplicate_products`):
`dedup(dedup(x)) == dedup(x)`. -/
theorem deduplicate_products_idempotent (products : List Product) :
    deduplicate_products_service (deduplicate_products_service products)
      = deduplicate_products_service products ∧
    deduplicate_products_extractor (deduplicate_products_extractor products)
      = deduplicate_products_extractor products :=
  ⟨dedupByGo_idem _ _ products [], dedupByGo_idem _ _ products []⟩

/-- C5, counterexample: with 21 distinct harvested URLs the capped
discovered set has 21 elements, but only 20 of them are passed to
concurrent extraction — `u21` is discovered yet never fetched, so it is
false that every URL in the capped set is fetched. -/
theorem discovery_not_all_fetched_cex :
    (discover_product_urls urls21).length = 21 ∧
    (fallback_fetched_urls urls21).length = 20 ∧
    "u21" ∈ discover_product_urls urls21 ∧
    "u21" ∉ fallback_fetched_urls urls21 := by
  decide

/-- C5, amended: the discovered union is capped at 100 URLs, but the
fallback then fetches only the first 20 of them
(`product_urls[:20]`); the set passed to concurrent extraction never
exceeds 20 (a fortiori never 100) and is always a subset of the capped
discovered set. -/
theorem fallback_fetch_cap (harvested : List String) :
    (discover_product_urls harvested).length ≤ 100 ∧
    (fallback_fetched_urls harvested).length ≤ 20 ∧
    ∀ u ∈ fallback_fetched_urls harvested, u ∈ discover_product_urls harvested := by
  refine ⟨?_, ?_, ?_⟩
  · rw [discover_product_urls, List.length_take]
    exact Nat.min_le_left _ _
  · rw [fallback_fetched_urls, List.length_take]
    exact Nat.min_le_left _ _
  · intro u hu
    exact List.take_subset _ _ hu

/-- C9, counterexample: for empty fetched content the detector returns
`False` even though the URL contains `myshopify.com`, contradicting the
claim that the URL marker alone suffices regardless of content. -/
theorem shopify_detector_empty_content_cex :
    is_shopify_store "" "https://brand.myshopify.com" = false ∧
    strContains "https://brand.myshopify.com" "myshopify.com" = true := by
  decide

/-- C9, amended: provided the content is non-empty (falsy content is
rejected up front), `is_shopify_store` returns true whenever the URL
contains `myshopify.com` or the body contains one of the fixed
indicator substrings, compared case-insensitively. -/
theorem is_shopify_store_true_of (html_content url : String)
    (hne : html_content.isEmpty = false)
    (h : strContains url "myshopify.com" = true ∨
         shopifyIndicators.any
           (fun i => strContains (strLower html_content) (strLower i)) = true) :
    is_shopify_store html_content url = true := by
  cases hu : strContains url "myshopify.com" with
  | true => simp [is_shopify_store, hne, hu]
  | false =>
    rcases h with h | h
    · rw [hu] at h; cases h
    · simp [is_shopify_store, hne, hu, h]

/-- Witness for C9's amended theorem at concrete inputs. -/
theorem is_shopify_store_true_of_witness :
    ("hello".isEmpty = false) ∧
    (strContains "https://brand.myshopify.com" "myshopify.com" = true ∨
     shopifyIndicators.any
       (fun i => strContains (strLower "hello") (strLower i)) = true) ∧
    is_shopify_store "hello" "https://brand.myshopify.com" = true :=
  ⟨rfl, Or.inl (by decide),
   is_shopify_store_true_of "hello" "https://brand.myshopify.com" rfl
     (Or.inl (by decide))⟩

/-- C2 (evidence of the code bug): on two retained `hero`-tagged
candidates where the later one scores higher (it has an image),
`_filter_hero_products_by_tags` returns them in input order — the
relevance sort is unreachable dead code below the function's returns —
while `_sort_hero_products_by_relevance` (scoring exactly as the claim
states) would return the higher-scored candidate first. -/
theorem filter_returns_unsorted_candidates :
    filter_hero_products_by_tags [heroPlain, heroWithImage]
      = [heroPlain, heroWithImage] ∧
    productScore heroTags heroPlain = 40 ∧
    productScore heroTags heroWithImage = 50 ∧
    sort_hero_products_by_relevance heroTags [heroPlain, heroWithImage]
      = [heroWithImage, heroPlain] := by
  decide

/-- C4, counterexample: when the very first attempt yields status 404,
control still reaches the synchronous fallback (the `break` merely
exits the retry loop, and the function ends with
`return self.fetch_page_sync(url)`), and the fallback's result — not
necessarily a failure — is returned. -/
theorem fetch_page_404_invokes_sync_cex :
    (fetch_page (fun _ => FetchOutcome.response 404 "") 3
        (some "sync body")).syncInvoked = true ∧
    (fetch_page (fun _ => FetchOutcome.response 404 "") 3
        (some "sync body")).result = some "sync body" ∧
    (fetch_page (fun _ => FetchOutcome.response 404 "") 3
        (some "sync body")).attemptsMade = 1 := by
  decide

/-- C7, counterexample: with two instagram anchors the stored handle is
the second (last) one, not the first, because each matching anchor
overwrites the slot. -/
theorem social_first_match_cex :
    (extractSocialHandles
        ["https://instagram.com/first", "https://instagram.com/second"]).instagram
      = some "https://instagram.com/second" ∧
    platformOfHref "https://instagram.com/first"
      = some SocialPlatform.instagram := by
  decide

/-- C8, counterexample: two valid candidates that share the domain
`shop.com` but differ in name and URL are both retained by
`_deduplicate_and_validate_competitors`, so the output is not limited
to one candidate per normalized domain. -/
theorem competitor_dedup_same_domain_cex :
    deduplicate_and_validate_competitors [candA, candB]
        "https://original-store.com" = [candA, candB] ∧
    netloc candA.url = netloc candB.url ∧
    candA ≠ candB := by
  decide

/-- Helper: a soft outcome (non-200, non-404 status or caught
exception) makes `fetchAttempts` sleep and recurse when attempts
remain, and fall through to the sync fallback otherwise. -/
theorem fetchAttempts_cons_soft (outcomes : Nat → FetchOutcome)
    (sync : Option String) (a : Nat) (rest : List Nat)
    (hs : isSoftOutcome (outcomes a) = true) :
    fetchAttempts outcomes sync (a :: rest)
      = if rest.isEmpty then ⟨sync, 1, [], true⟩
        else
          let t := fetchAttempts outcomes sync rest
          ⟨t.result, t.attemptsMade + 1, min (2 ^ a) 10 :: t.backoffs,
           t.syncInvoked⟩ := by
  cases ho : outcomes a with
  | response code body =>
    rw [ho] at hs
    simp only [isSoftOutcome, Bool.or_eq_true, beq_iff_eq, Bool.and_eq_true,
      decide_eq_true_eq] at hs
    have h200 : ¬ code = 200 := by omega
    have h404 : ¬ code = 404 := by omega
    simp [fetchAttempts, ho, h200, h404]
  | timeout => simp [fetchAttempts, ho]
  | clientError => simp [fetchAttempts, ho]
  | otherError => rw [ho] at hs; cases hs

/-- Helper for C3: over any block of attempt indices whose outcomes are
all soft, the fetch performs every attempt, sleeps `min(2^i, 10)`
between consecutive ones, and ends in the sync fallback. -/
theorem fetchAttempts_all_soft (outcomes : Nat → FetchOutcome)
    (sync : Option String) :
    ∀ (n s : Nat),
      (∀ i, s ≤ i → i < s + n → isSoftOutcome (outcomes i) = true) →
      fetchAttempts outcomes sync (List.range' s n)
        = ⟨sync, n, (List.range' s (n - 1)).map (fun i => min (2 ^ i) 10),
           true⟩ := by
  intro n
  induction n with
  | zero => intro s h; rfl
  | succ m ih =>
    intro s h
    have hs : isSoftOutcome (outcomes s) = true := h s (le_refl s) (by omega)
    rw [List.range'_succ, fetchAttempts_cons_soft outcomes sync s _ hs]
    cases m with
    | zero => rfl
    | succ k =>
      have hrec := ih (s + 1) (fun i h1 h2 => h i (by omega) (by omega))
      rw [List.range'_succ]
      simp only [List.isEmpty_cons, Bool.false_eq_true, if_false]
      rw [← List.range'_succ, hrec]
      simp [List.range'_succ]

/-- C3: when every attempt's outcome is a soft failure (403/429/5xx,
timeout, or transport error), `fetch_page` makes exactly `retries + 1`
asynchronous attempts, then invokes the synchronous fallback, and the
backoff slept between attempt `i` and attempt `i + 1` is
`min(2^i, 10)` seconds. -/
theorem fetch_page_soft_retry_schedule (outcomes : Nat → FetchOutcome)
    (retries : Nat) (sync : Option String)
    (h : ∀ i, i ≤ retries → isSoftOutcome (outcomes i) = true) :
    (fetch_page outcomes retries sync).attemptsMade = retries + 1 ∧
    (fetch_page outcomes retries sync).syncInvoked = true ∧
    (fetch_page outcomes retries sync).backoffs
      = (List.range retries).map (fun i => min (2 ^ i) 10) := by
  have hall := fetchAttempts_all_soft outcomes sync (retries + 1) 0
    (fun i h1 h2 => h i (by omega))
  rw [fetch_page, List.range_eq_range', hall]
  refine ⟨rfl, rfl, ?_⟩
  rw [List.range_eq_range']
  simp

/-- Witness for C3 at a concrete trace: every attempt times out,
`retries = 2`. -/
theorem fetch_page_soft_retry_schedule_witness :
    (∀ i, i ≤ 2 → isSoftOutcome ((fun _ => FetchOutcome.timeout) i) = true) ∧
    ((fetch_page (fun _ => FetchOutcome.timeout) 2 none).attemptsMade = 2 + 1 ∧
     (fetch_page (fun _ => FetchOutcome.timeout) 2 none).syncInvoked = true ∧
     (fetch_page (fun _ => FetchOutcome.timeout) 2 none).backoffs
       = (List.range 2).map (fun i => min (2 ^ i) 10)) :=
  ⟨fun _ _ => rfl,
   fetch_page_soft_retry_schedule (fun _ => FetchOutcome.timeout) 2 none
     (fun _ _ => rfl)⟩

/-- Helper for C4's amended claim: if the outcomes are soft up to
position `k` of the attempt block and attempt `k` answers 404, the loop
stops right there and falls through to the sync fallback. -/
theorem fetchAttempts_404 (outcomes : Nat → FetchOutcome)
    (sync : Option String) :
    ∀ (k n s : Nat), k < n →
      (∀ i, s ≤ i → i < s + k → isSoftOutcome (outcomes i) = true) →
      (∃ body, outcomes (s + k) = FetchOutcome.response 404 body) →
      fetchAttempts outcomes sync (List.range' s n)
        = ⟨sync, k + 1, (List.range' s k).map (fun i => min (2 ^ i) 10),
           true⟩ := by
  intro k
  induction k with
  | zero =>
    intro n s hn _ h404
    obtain ⟨m, rfl⟩ : ∃ m, n = m + 1 := ⟨n - 1, by omega⟩
    obtain ⟨body, hb⟩ := h404
    rw [Nat.add_zero] at hb
    rw [List.range'_succ]
    simp [fetchAttempts, hb]
  | succ k ih =>
    intro n s hn hsoft h404
    obtain ⟨m, rfl⟩ : ∃ m, n = m + 1 := ⟨n - 1, by omega⟩
    have hs : isSoftOutcome (outcomes s) = true :=
      hsoft s (le_refl s) (by omega)
    rw [List.range'_succ, fetchAttempts_cons_soft outcomes sync s _ hs]
    obtain ⟨l, rfl⟩ : ∃ l, m = l + 1 := ⟨m - 1, by omega⟩
    have hrec := ih (l + 1) (s + 1) (by omega)
      (fun i h1 h2 => hsoft i (by omega) (by omega))
      (by rw [show s + 1 + k = s + (k + 1) by omega]; exact h404)
    rw [List.range'_succ]
    simp only [List.isEmpty_cons, Bool.false_eq_true, if_false]
    rw [← List.range'_succ, hrec]
    simp [List.range'_succ]

/-- C4, amended: a 404 outcome at attempt `j` (after soft failures on
the earlier attempts) aborts the asynchronous retries immediately — no
further attempts, no backoff after the 404 — but control then proceeds
to the synchronous fallback, whose result is returned. -/
theorem fetch_page_404_aborts_retries (outcomes : Nat → FetchOutcome)
    (retries : Nat) (sync : Option String) (j : Nat) (body : String)
    (hj : j ≤ retries)
    (hsoft : ∀ i, i < j → isSoftOutcome (outcomes i) = true)
    (h404 : outcomes j = FetchOutcome.response 404 body) :
    fetch_page outcomes retries sync
      = ⟨sync, j + 1, (List.range j).map (fun i => min (2 ^ i) 10), true⟩ := by
  rw [fetch_page, List.range_eq_range']
  have := fetchAttempts_404 outcomes sync j (retries + 1) 0 (by omega)
    (fun i h1 h2 => hsoft i (by omega))
    ⟨body, by simpa using h404⟩
  rw [this, List.range_eq_range']

/-- Witness for C4's amended theorem: a timeout then a 404, with
`retries = 3`; two attempts happen, one backoff, sync fallback
reached. -/
theorem fetch_page_404_aborts_retries_witness :
    (1 ≤ 3) ∧
    (∀ i, i < 1 → isSoftOutcome (outcomesTimeoutThen404 i) = true) ∧
    outcomesTimeoutThen404 1 = FetchOutcome.response 404 "gone" ∧
    fetch_page outcomesTimeoutThen404 3 none
      = ⟨none, 1 + 1, (List.range 1).map (fun i => min (2 ^ i) 10), true⟩ :=
  ⟨by omega,
   fun i hi => by
     have h0 : i = 0 := by omega
     subst h0; rfl,
   rfl,
   fetch_page_404_aborts_retries outcomesTimeoutThen404 3 none 1 "gone"
     (by omega)
     (fun i hi => by
       have h0 : i = 0 := by omega
       subst h0; rfl)
     rfl⟩

/-- Helper for C10: the pagination loop never fetches more pages than
it has fuel (loop iterations) left. -/
theorem loadPagesGo_count_le (responses : Nat → Option (List (Option Product))) :
    ∀ fuel page, (loadPagesGo responses fuel page).2 ≤ fuel := by
  intro fuel
  induction fuel with
  | zero => intro page; simp [loadPagesGo]
  | succ m ih =>
    intro page
    cases hr : responses page with
    | none => simp [loadPagesGo, hr]
    | some items =>
      by_cases he : items.isEmpty
      · simp [loadPagesGo, hr, he]
      · by_cases hl : items.length < 50
        · simp [loadPagesGo, hr, he, hl]
        · have := ih (page + 1)
          simp only [loadPagesGo, hr, he, hl]
          simpa using Nat.succ_le_succ this

/-- Helper for C10: with `k` full pages followed by a stopping page
(and fuel to spare), the loop fetches exactly `k + 1` pages. -/
theorem loadPagesGo_stops (responses : Nat → Option (List (Option Product))) :
    ∀ (k fuel page : Nat), k < fuel →
      (∀ j, page ≤ j → j < page + k → isFullPage (responses j) = true) →
      isStopPage (responses (page + k)) = true →
      (loadPagesGo responses fuel page).2 = k + 1 := by
  intro k
  induction k with
  | zero =>
    intro fuel page hf _ hstop
    obtain ⟨m, rfl⟩ : ∃ m, fuel = m + 1 := ⟨fuel - 1, by omega⟩
    rw [Nat.add_zero] at hstop
    cases hr : responses page with
    | none => simp [loadPagesGo, hr]
    | some items =>
      rw [hr] at hstop
      simp only [isStopPage, Bool.or_eq_true, decide_eq_true_eq] at hstop
      by_cases he : items.isEmpty
      · simp [loadPagesGo, hr, he]
      · have hlen : items.length < 50 := by
          rcases hstop with h | h
          · exact absurd h he
          · exact h
        simp [loadPagesGo, hr, he, hlen]
  | succ k ih =>
    intro fuel page hf hfull hstop
    obtain ⟨m, rfl⟩ : ∃ m, fuel = m + 1 := ⟨fuel - 1, by omega⟩
    have hfp : isFullPage (responses page) = true :=
      hfull page (le_refl _) (by omega)
    cases hr : responses page with
    | none => rw [hr] at hfp; cases hfp
    | some items =>
      rw [hr] at hfp
      simp only [isFullPage, Bool.and_eq_true, Bool.not_eq_true',
        decide_eq_true_eq] at hfp
      obtain ⟨hne, hlen⟩ := hfp
      have hnl : ¬ items.length < 50 := by omega
      have hrec := ih m (page + 1) (by omega)
        (fun j h1 h2 => hfull j (by omega) (by omega))
        (by rw [show page + 1 + k = page + (k + 1) by omega]; exact hstop)
      simp [loadPagesGo, hr, hne, hnl, hrec]

/-- C10: the vendor-JSON catalog loader fetches at most 10 pages no
matter what the endpoint answers (the loop is bounded by
`max_pages = 10`), and it stops right after the first page that fails
to parse, is empty, or holds fewer than 50 products: with `k` full
pages before such a page, exactly `k + 1` fetches happen. -/
theorem products_json_pagination_bounded
    (responses : Nat → Option (List (Option Product))) :
    (load_all_products_from_json responses).2 ≤ 10 ∧
    ∀ k, k < 10 →
      (∀ j, 1 ≤ j → j ≤ k → isFullPage (responses j) = true) →
      isStopPage (responses (k + 1)) = true →
      (load_all_products_from_json responses).2 = k + 1 := by
  constructor
  · exact loadPagesGo_count_le responses 10 1
  · intro k hk hfull hstop
    exact loadPagesGo_stops responses k 10 1 hk
      (fun j h1 h2 => hfull j h1 (by omega))
      (by rw [show 1 + k = k + 1 by omega]; exact hstop)

/-- Witness for C10 at a concrete trace: one full page, then a short
page; exactly two fetches. -/
theorem products_json_pagination_bounded_witness :
    (1 < 10) ∧
    (∀ j, 1 ≤ j → j ≤ 1 → isFullPage (pagedResponses j) = true) ∧
    isStopPage (pagedResponses 2) = true ∧
    (load_all_products_from_json pagedResponses).2 = 1 + 1 :=
  ⟨by omega,
   fun j h1 h2 => by
     have hj : j = 1 := by omega
     subst hj; rfl,
   rfl,
   (products_json_pagination_bounded pagedResponses).2 1 (by omega)
     (fun j h1 h2 => by
       have hj : j = 1 := by omega
       subst hj; rfl)
     rfl⟩

/-- Helper for C7: reading one slot after setting another. -/
theorem getHandle_setHandle (s : SocialHandles) (p q : SocialPlatform)
    (v : String) :
    getHandle (setHandle s p v) q = if p = q then some v else getHandle s q := by
  cases p <;> cases q <;> simp [getHandle, setHandle]

/-- Helper for C7: the effect of one anchor on one slot. -/
theorem getHandle_updateSocialHandles (s : SocialHandles) (h : String)
    (p : SocialPlatform) :
    getHandle (updateSocialHandles s h) p
      = if platformOfHref h = some p then some (clean_social_url h)
        else getHandle s p := by
  unfold updateSocialHandles
  cases hp : platformOfHref h with
  | none => simp
  | some q =>
    rw [getHandle_setHandle]
    by_cases hq : q = p
    · subst hq; simp
    · simp [hq, Option.some_inj]

/-- Helper for C7: folding the anchor loop computes, per slot, the
cleaned URL of the last matching anchor (or leaves the slot alone). -/
theorem getHandle_foldl_updateSocialHandles (p : SocialPlatform) :
    ∀ (hrefs : List String) (s : SocialHandles),
      getHandle (hrefs.foldl updateSocialHandles s) p
        = match hrefs.reverse.find? (fun h => platformOfHref h == some p) with
          | some h => some (clean_social_url h)
          | none => getHandle s p := by
  intro hrefs
  induction hrefs with
  | nil => intro s; rfl
  | cons h t ih =>
    intro s
    rw [List.foldl_cons, ih (updateSocialHandles s h), List.reverse_cons,
      List.find?_append]
    cases hf : t.reverse.find? (fun x => platformOfHref x == some p) with
    | some x => simp [Option.or]
    | none =>
      simp only [Option.or]
      rw [getHandle_updateSocialHandles]
      by_cases hp : platformOfHref h = some p
      · simp [List.find?, hp]
      · have : (platformOfHref h == some p) = false := by
          simp [hp]
        simp [List.find?, this, hp]

/-- C7, amended: the extractor keeps at most one URL per platform (one
optional slot each), and for each platform the stored URL is the
cleaned href of the LAST anchor in document order that the `if`/`elif`
chain assigns to that platform — each later match overwrites the
earlier one. -/
theorem social_handles_last_match (hrefs : List String) (p : SocialPlatform) :
    getHandle (extractSocialHandles hrefs) p
      = (hrefs.reverse.find? (fun h => platformOfHref h == some p)).map
          clean_social_url := by
  rw [extractSocialHandles, getHandle_foldl_updateSocialHandles]
  cases hf : hrefs.reverse.find? (fun h => platformOfHref h == some p) with
  | some x => rfl
  | none => cases p <;> rfl

/-- Helper for C8: along the dedup-and-validate loop, retained
candidates have pairwise distinct lower-cased URLs and names, none of
which were already in the seen sets. -/
theorem dedupValGo_nodup (orig : String) :
    ∀ (cs : List Candidate) (seenU seenN : List String),
      (((dedupValGo orig cs seenU seenN).map
          (fun c => strLower c.url)).Nodup ∧
        ∀ c ∈ dedupValGo orig cs seenU seenN, strLower c.url ∉ seenU) ∧
      (((dedupValGo orig cs seenU seenN).map
          (fun c => strLower c.name)).Nodup ∧
        ∀ c ∈ dedupValGo orig cs seenU seenN, strLower c.name ∉ seenN) := by
  intro cs
  induction cs with
  | nil => intro seenU seenN; simp [dedupValGo]
  | cons c cs ih =>
    intro seenU seenN
    by_cases h1 : strLower c.url ∈ seenU ∨ strLower c.name ∈ seenN
    · simp only [dedupValGo, if_pos h1]
      exact ih seenU seenN
    · by_cases h2 : (!is_valid_competitor_url c.url orig) = true
      · simp only [dedupValGo, if_neg h1, if_pos h2]
        exact ih seenU seenN
      · simp only [dedupValGo, if_neg h1, if_neg h2]
        obtain ⟨⟨ihu1, ihu2⟩, ihn1, ihn2⟩ :=
          ih (strLower c.url :: seenU) (strLower c.name :: seenN)
        push_neg at h1
        refine ⟨⟨?_, ?_⟩, ?_, ?_⟩
        · rw [List.map_cons, List.nodup_cons]
          refine ⟨fun hmem => ?_, ihu1⟩
          obtain ⟨x, hx, hxe⟩ := List.mem_map.mp hmem
          exact (ihu2 x hx) (hxe ▸ List.mem_cons_self _ _)
        · intro x hx
          rcases List.mem_cons.mp hx with rfl | hx
          · exact h1.1
          · exact fun hmem => (ihu2 x hx) (List.mem_cons_of_mem _ hmem)
        · rw [List.map_cons, List.nodup_cons]
          refine ⟨fun hmem => ?_, ihn1⟩
          obtain ⟨x, hx, hxe⟩ := List.mem_map.mp hmem
          exact (ihn2 x hx) (hxe ▸ List.mem_cons_self _ _)
        · intro x hx
          rcases List.mem_cons.mp hx with rfl | hx
          · exact h1.2
          · exact fun hmem => (ihn2 x hx) (List.mem_cons_of_mem _ hmem)

/-- C8, amended: `_deduplicate_and_validate_competitors` keys on the
lower-cased full URL and the lower-cased display name, not on the
domain: its output contains at most one candidate per lower-cased URL
and at most one per lower-cased name, while two candidates that share
a domain but differ in both URL and name are all retained (see the
counterexample). -/
theorem competitor_dedup_unique_keys (competitors : List Candidate)
    (original_url : String) :
    ((deduplicate_and_validate_competitors competitors original_url).map
        (fun c => strLower c.url)).Nodup ∧
    ((deduplicate_and_validate_competitors competitors original_url).map
        (fun c => strLower c.name)).Nodup :=
  ⟨(dedupValGo_nodup original_url competitors [] []).1.1,
   (dedupValGo_nodup original_url competitors [] []).2.1⟩

/-- Helper for C1: the `homepage_products` list built by the filter
loop is exactly the order-preserving sublist of `homepage`-tagged
products. -/
theorem filterHeroAux_fst (l : List Product) :
    (filterHeroAux l).1 = l.filter isHomepageTagged := by
  induction l with
  | nil => rfl
  | cons p ps ih =>
    simp only [filterHeroAux, List.filter_cons]
    by_cases he : (tagsOf p).isEmpty = true
    · have hh : isHomepageTagged p = false := by
        have hnil : tagsOf p = [] := List.isEmpty_iff.mp he
        simp [isHomepageTagged, hnil]
      simp [he, hh, ih]
    · by_cases hh : isHomepageTagged p = true
      · simp [he, hh, ih]
      · by_cases ha : heroTags.any (fun t => (tagsOf p).contains t) = true
        · have ha' : ∃ x ∈ heroTags, x ∈ tagsOf p := by simpa using ha
          simp [he, hh, ha', ih]
        · have ha' : ¬∃ x ∈ heroTags, x ∈ tagsOf p := by simpa using ha
          simp [he, hh, ha', ih]

/-- Helper for C1: the `hero_products` list built by the filter loop is
exactly the order-preserving sublist of products that carry a hero tag
but not `homepage`. -/
theorem filterHeroAux_snd (l : List Product) :
    (filterHeroAux l).2 = l.filter isOtherHeroTagged := by
  induction l with
  | nil => rfl
  | cons p ps ih =>
    simp only [filterHeroAux, List.filter_cons]
    by_cases he : (tagsOf p).isEmpty = true
    · have hh : isOtherHeroTagged p = false := by
        simp [isOtherHeroTagged, he]
      simp [he, hh, ih]
    · by_cases hh : isHomepageTagged p = true
      · have ho : isOtherHeroTagged p = false := by
          simp [isOtherHeroTagged, hh]
        simp [he, hh, ho, ih]
      · by_cases ha : heroTags.any (fun t => (tagsOf p).contains t) = true
        · have ha' : ∃ x ∈ heroTags, x ∈ tagsOf p := by simpa using ha
          have ho : isOtherHeroTagged p = true := by
            simp only [isOtherHeroTagged, Bool.and_eq_true]
            refine ⟨⟨by simpa using he, by simpa using hh⟩, ha⟩
          simp [he, hh, ha', ho, ih]
        · have ha' : ¬∃ x ∈ heroTags, x ∈ tagsOf p := by simpa using ha
          have ho : isOtherHeroTagged p = false := by
            simp only [isOtherHeroTagged, Bool.and_eq_false_iff]
            right
            simpa using ha
          simp [he, hh, ha', ho, ih]

/-- Helper for C1/C2: the filter returns the `homepage`-tagged products
followed by the other hero-tagged products, each group in input
order. -/
theorem filter_hero_products_by_tags_eq (l : List Product) :
    filter_hero_products_by_tags l
      = l.filter isHomepageTagged ++ l.filter isOtherHeroTagged := by
  simp only [filter_hero_products_by_tags, filterHeroAux_fst, filterHeroAux_snd]
  by_cases h1 : (l.filter isHomepageTagged).isEmpty = true
  · rw [List.isEmpty_iff.mp h1]
    by_cases h2 : (l.filter isOtherHeroTagged).isEmpty = true
    · rw [List.isEmpty_iff.mp h2]
      simp
    · simp [h1, h2]
  · simp [h1]

/-- C1: for every catalog, if some input product carries the tag
`homepage` then the hero list returned by `extract_async` has at most
10 items and splits as homepage-tagged items followed by items without
that tag; if no input product carries `homepage` (and the
position-based fallback produces none either, which it cannot — it
builds products without tags), the returned list has at most 6
items. -/
theorem hero_selection_spec (products positionFallback : List Product)
    (hfb : ∀ p ∈ positionFallback, isHomepageTagged p = false) :
    ((∃ p ∈ products, isHomepageTagged p = true) →
       (extract_async products positionFallback).length ≤ 10 ∧
       ∃ pre post,
         extract_async products positionFallback = pre ++ post ∧
         (∀ q ∈ pre, isHomepageTagged q = true) ∧
         (∀ q ∈ post, isHomepageTagged q = false)) ∧
    ((∀ p ∈ products, isHomepageTagged p = false) →
       (extract_async products positionFallback).length ≤ 6) := by
  constructor
  · rintro ⟨p, hpmem, hptag⟩
    have hmem : p ∈ products.filter isHomepageTagged :=
      List.mem_filter.mpr ⟨hpmem, hptag⟩
    have hne : (products.filter isHomepageTagged
        ++ products.filter isOtherHeroTagged).isEmpty = false := by
      cases hfl : products.filter isHomepageTagged with
      | nil => rw [hfl] at hmem; simp at hmem
      | cons a l => simp [hfl]
    have hany : (products.filter isHomepageTagged
        ++ products.filter isOtherHeroTagged).any isHomepageTagged = true :=
      List.any_eq_true.mpr ⟨p, List.mem_append_left _ hmem, hptag⟩
    have hres : extract_async products positionFallback
        = (products.filter isHomepageTagged
            ++ products.filter isOtherHeroTagged).take 10 := by
      simp only [extract_async, filter_hero_products_by_tags_eq, hne, hany,
        Bool.false_eq_true, if_false, if_true]
    constructor
    · rw [hres, List.length_take]
      exact Nat.min_le_left _ _
    · refine ⟨(products.filter isHomepageTagged).take 10,
        (products.filter isOtherHeroTagged).take
          (10 - (products.filter isHomepageTagged).length), ?_, ?_, ?_⟩
      · rw [hres, List.take_append_eq_append_take]
      · intro q hq
        exact (List.mem_filter.mp (List.take_subset _ _ hq)).2
      · intro q hq
        have hother := (List.mem_filter.mp (List.take_subset _ _ hq)).2
        simp only [isOtherHeroTagged, Bool.and_eq_true, Bool.not_eq_true']
          at hother
        exact hother.1.2
  · intro hall
    have hp0 : products.filter isHomepageTagged = [] :=
      List.filter_eq_nil_iff.mpr (fun a ha => by simp [hall a ha])
    by_cases hcase : (products.filter isOtherHeroTagged).isEmpty = true
    · have hempty : (filter_hero_products_by_tags products).isEmpty = true := by
        rw [filter_hero_products_by_tags_eq, hp0, List.isEmpty_iff.mp hcase]
        rfl
      have hfbany : positionFallback.any isHomepageTagged = false :=
        List.any_eq_false.mpr (fun x hx => by simp [hfb x hx])
      have hres : extract_async products positionFallback
          = positionFallback.take 6 := by
        simp only [extract_async, hempty, if_true, hfbany, Bool.false_eq_true,
          if_false]
      rw [hres, List.length_take]
      exact Nat.min_le_left _ _
    · have hne : (filter_hero_products_by_tags products).isEmpty = false := by
        rw [filter_hero_products_by_tags_eq, hp0, List.nil_append]
        simpa using hcase
      have hany : (filter_hero_products_by_tags products).any isHomepageTagged
          = false := by
        rw [filter_hero_products_by_tags_eq, hp0, List.nil_append]
        refine List.any_eq_false.mpr (fun x hx => ?_)
        have hother := (List.mem_filter.mp hx).2
        simp only [isOtherHeroTagged, Bool.and_eq_true, Bool.not_eq_true']
          at hother
        simp [hother.1.2]
      have hres : extract_async products positionFallback
          = (filter_hero_products_by_tags products).take 6 := by
        simp only [extract_async, hne, Bool.false_eq_true, if_false, hany]
      rw [hres, List.length_take]
      exact Nat.min_le_left _ _

/-- Witness for C1 at a concrete catalog containing a homepage-tagged
product (and an empty position fallback). -/
theorem hero_selection_spec_witness :
    (∀ p ∈ ([] : List Product), isHomepageTagged p = false) ∧
    (((∃ p ∈ [plainProduct, hpProduct], isHomepageTagged p = true) →
        (extract_async [plainProduct, hpProduct] []).length ≤ 10 ∧
        ∃ pre post,
          extract_async [plainProduct, hpProduct] [] = pre ++ post ∧
          (∀ q ∈ pre, isHomepageTagged q = true) ∧
          (∀ q ∈ post, isHomepageTagged q = false)) ∧
     ((∀ p ∈ [plainProduct, hpProduct], isHomepageTagged p = false) →
        (extract_async [plainProduct, hpProduct] []).length ≤ 6)) :=
  ⟨by simp, hero_selection_spec [plainProduct, hpProduct] [] (by simp)⟩
